import Mathlib

/-!
Shallow embedding of the Bedrock adapter code: the embeddings provider
(response parsing and model-id normalization) and the model-discovery
cache (key derivation, filtering, definition emission, cache state
machine, inference-profile map construction).

JavaScript semantics conventions used throughout:
  * absent / undefined values are modelled with Option (none = undefined);
  * JSON values are modelled by the inductive JsonValue;
  * String.prototype.trim is modelled by jsTrim (whitespace stripped from
    both ends);
  * Math.floor on configuration numbers is the identity because the
    numbers are modelled as integers;
  * a thrown exception is modelled by Except.error.
-/

namespace BedrockAdapter

/-- A JSON value as produced by JSON.parse: null, boolean, number, string,
array or object (an association list of fields). -/
inductive JsonValue where
  | jnull : JsonValue
  | jbool : Bool → JsonValue
  | jnum : Int → JsonValue
  | jstr : String → JsonValue
  | jarr : List JsonValue → JsonValue
  | jobj : List (String × JsonValue) → JsonValue

/-- Field lookup on a JSON object association list (objects have unique
keys, so the first match is the value). -/
def lookupField : List (String × JsonValue) → String → Option JsonValue
  | [], _ => none
  | (k, v) :: rest, key => if k = key then some v else lookupField rest key

/-- JavaScript property access on a defined value: on null it throws a
TypeError, on an object it yields the field (undefined when missing), on
any other value it yields undefined. -/
def jsGetProp : JsonValue → String → Except Unit (Option JsonValue)
  | .jnull, _ => .error ()
  | .jobj fields, key => .ok (lookupField fields key)
  | _, _ => .ok none

/-- JavaScript index access at 0 behind optional chaining: nullish values
short-circuit, arrays yield their first element (undefined when empty),
strings yield their first character, plain objects yield their property
named "0" (the numeric index is converted to a string key), and the
remaining primitives yield undefined. -/
def jsIndexZero : Option JsonValue → Option JsonValue
  | none => none
  | some .jnull => none
  | some (.jarr xs) => xs.head?
  | some (.jstr s) => s.data.head?.map (fun c => .jstr (String.mk [c]))
  | some (.jobj fields) => lookupField fields "0"
  | some _ => none

/-- JavaScript property access behind optional chaining: nullish values
short-circuit, objects yield the field, all other values yield undefined. -/
def jsOptProp (v : Option JsonValue) (key : String) : Option JsonValue :=
  match v with
  | none => none
  | some .jnull => none
  | some (.jobj fields) => lookupField fields key
  | some _ => none

/-- Embedding of parseNova2Response: body.embeddings?.[0]?.embedding ?? [].
The first property access is unguarded (throws on null), the rest of the
chain uses optional chaining, and the nullish coalescing turns a nullish
result into []. -/
def parseNova2Response (body : JsonValue) : Except Unit JsonValue :=
  match jsGetProp body "embeddings" with
  | .error e => .error e
  | .ok e1 =>
    match jsOptProp (jsIndexZero e1) "embedding" with
    | none => .ok (.jarr [])
    | some .jnull => .ok (.jarr [])
    | some v => .ok v

/-- Drop whitespace characters from the front of a character list. -/
def trimLeftChars : List Char → List Char
  | [] => []
  | c :: cs => if c.isWhitespace then trimLeftChars cs else c :: cs

/-- Embedding of String.prototype.trim: strip whitespace from both ends. -/
def jsTrim (s : String) : String :=
  String.mk ((trimLeftChars ((trimLeftChars s.data).reverse)).reverse)

/-- Embedding of String.prototype.toLowerCase (character-wise). -/
def jsToLower (s : String) : String := String.mk (s.data.map Char.toLower)

/-- Embedding of String.prototype.toUpperCase (character-wise). -/
def jsToUpper (s : String) : String := String.mk (s.data.map Char.toUpper)

/-- The fixed default embedding model id. -/
def DEFAULT_BEDROCK_EMBEDDING_MODEL : String :=
  "amazon.nova-2-multimodal-embeddings-v1:0"

/-- The marker stripped from the front of model ids. -/
def bedrockMarker : String := "bedrock/"

/-- Embedding of normalizeBedrockModel: trim, map empty to the default
model id, strip a leading bedrock/ marker, otherwise pass through. -/
def normalizeBedrockModel (model : String) : String :=
  let trimmed := jsTrim model
  if trimmed = "" then DEFAULT_BEDROCK_EMBEDDING_MODEL
  else if bedrockMarker.data.isPrefixOf trimmed.data then
    String.mk (trimmed.data.drop bedrockMarker.length)
  else trimmed

/-- Rest of the haystack after the first occurrence of the needle (none when
the needle does not occur): models String.prototype.indexOf plus slice. -/
def restAfterNeedle (needle : List Char) : List Char → Option (List Char)
  | [] => if needle = [] then some [] else none
  | c :: cs =>
    if needle.isPrefixOf (c :: cs) then some ((c :: cs).drop needle.length)
    else restAfterNeedle needle cs

/-- Whether the needle occurs as a substring of the haystack. -/
def containsSub (haystack needle : String) : Bool :=
  (restAfterNeedle needle.data haystack.data).isSome

/-- Lifecycle subrecord of a model summary. -/
structure ModelLifecycle where
  status : Option String := none

/-- Raw per-model metadata from the ListFoundationModels call; every field
can be absent. -/
structure BedrockModelSummary where
  modelId : Option String := none
  modelName : Option String := none
  providerName : Option String := none
  inputModalities : Option (List String) := none
  outputModalities : Option (List String) := none
  responseStreamingSupported : Option Bool := none
  modelLifecycle : Option ModelLifecycle := none

/-- Embedding of includesTextModalities. -/
def includesTextModalities (modalities : Option (List String)) : Bool :=
  (modalities.getD []).any (fun entry => jsToLower entry = "text")

/-- Embedding of isActive: the lifecycle status, when it is a string,
compares case-insensitively to ACTIVE. -/
def isActive (summary : BedrockModelSummary) : Bool :=
  match summary.modelLifecycle with
  | none => false
  | some lc =>
    match lc.status with
    | none => false
    | some status => jsToUpper status = "ACTIVE"

/-- Input modality of a model definition. -/
inductive InputModality where
  | text
  | image
deriving DecidableEq

/-- Add an element to a list-modelled insertion-ordered set. -/
def addToSet (acc : List InputModality) (m : InputModality) : List InputModality :=
  if m ∈ acc then acc else acc ++ [m]

/-- Embedding of mapInputModalities: collect text and image modalities in
insertion order, defaulting to text when none is recognized. -/
def mapInputModalities (summary : BedrockModelSummary) : List InputModality :=
  let inputs := summary.inputModalities.getD []
  let mapped := inputs.foldl (fun acc modality =>
    let lower := jsToLower modality
    let acc := if lower = "text" then addToSet acc .text else acc
    if lower = "image" then addToSet acc .image else acc) []
  if mapped = [] then [.text] else mapped

/-- Embedding of inferReasoningSupport: substring heuristic over id+name. -/
def inferReasoningSupport (summary : BedrockModelSummary) : Bool :=
  let haystack := jsToLower ((summary.modelId.getD "") ++ " " ++ (summary.modelName.getD ""))
  containsSub haystack "reasoning" || containsSub haystack "thinking"

/-- Discovery configuration record; numbers are modelled as integers. -/
structure BedrockDiscoveryConfig where
  refreshInterval : Option Int := none
  providerFilter : Option (List String) := none
  defaultContextWindow : Option Int := none
  defaultMaxTokens : Option Int := none

def DEFAULT_REFRESH_INTERVAL_SECONDS : Int := 3600
def DEFAULT_CONTEXT_WINDOW : Int := 32000
def DEFAULT_MAX_TOKENS : Int := 4096

/-- Cost record of a model definition. -/
structure ModelCost where
  input : Int
  output : Int
  cacheRead : Int
  cacheWrite : Int
deriving DecidableEq

def DEFAULT_COST : ModelCost :=
  { input := 0, output := 0, cacheRead := 0, cacheWrite := 0 }

/-- Embedding of resolveDefaultContextWindow. -/
def resolveDefaultContextWindow (config : Option BedrockDiscoveryConfig) : Int :=
  let value := (config.bind (·.defaultContextWindow)).getD DEFAULT_CONTEXT_WINDOW
  if value > 0 then value else DEFAULT_CONTEXT_WINDOW

/-- Embedding of resolveDefaultMaxTokens. -/
def resolveDefaultMaxTokens (config : Option BedrockDiscoveryConfig) : Int :=
  let value := (config.bind (·.defaultMaxTokens)).getD DEFAULT_MAX_TOKENS
  if value > 0 then value else DEFAULT_MAX_TOKENS

/-- Characters of the model id before the first dot: models split plus
taking the first element, which for a string always exists. -/
def splitHeadDot (s : String) : String :=
  String.mk (s.data.takeWhile (fun c => c ≠ '.'))

/-- Embedding of matchesProviderFilter: an empty filter matches everything;
otherwise the provider name (falling back to the model-id part before the
first dot) is trimmed and lower-cased, an empty result fails the filter,
and a non-empty one must be a member of the filter list. -/
def matchesProviderFilter (summary : BedrockModelSummary) (filter : List String) : Bool :=
  if filter = [] then true
  else
    let providerName : Option String :=
      match summary.providerName with
      | some p => some p
      | none => summary.modelId.map splitHeadDot
    match providerName with
    | none => false
    | some p =>
      let normalized := jsToLower (jsTrim p)
      if normalized = "" then false else filter.contains normalized

/-- Embedding of shouldIncludeSummary. -/
def shouldIncludeSummary (summary : BedrockModelSummary) (filter : List String) : Bool :=
  if (summary.modelId.map jsTrim).getD "" = "" then false
  else if ¬ matchesProviderFilter summary filter then false
  else if summary.responseStreamingSupported ≠ some true then false
  else if ¬ includesTextModalities summary.outputModalities then false
  else if ¬ isActive summary then false
  else true

/-- A generic model definition produced by discovery. -/
structure ModelDefinitionConfig where
  id : String
  name : String
  reasoning : Bool
  input : List InputModality
  cost : ModelCost
  contextWindow : Int
  maxTokens : Int
deriving DecidableEq

/-- The uniform defaults applied to every emitted definition. -/
structure DiscoveryDefaults where
  contextWindow : Int
  maxTokens : Int
deriving DecidableEq

/-- Embedding of toModelDefinition: the id is the inference-profile id when
one is given (nullish coalescing), otherwise the trimmed base model id; the
display name falls back to the id when absent or blank. -/
def toModelDefinition (summary : BedrockModelSummary) (defaults : DiscoveryDefaults)
    (inferenceProfileId : Option String) : ModelDefinitionConfig :=
  let baseId := (summary.modelId.map jsTrim).getD ""
  let id := inferenceProfileId.getD baseId
  { id := id
    name :=
      match summary.modelName.map jsTrim with
      | some n => if n = "" then id else n
      | none => id
    reasoning := inferReasoningSupport summary
    input := mapInputModalities summary
    cost := DEFAULT_COST
    contextWindow := defaults.contextWindow
    maxTokens := defaults.maxTokens }

/-- One model reference inside an inference-profile summary. -/
structure InferenceProfileModelRef where
  modelArn : Option String := none

/-- One inference-profile summary from the listing call. -/
structure InferenceProfileSummary where
  inferenceProfileId : Option String := none
  models : Option (List InferenceProfileModelRef) := none

/-- One page of the paginated ListInferenceProfiles call. -/
structure InferenceProfilePage where
  inferenceProfileSummaries : Option (List InferenceProfileSummary) := none
  nextToken : Option String := none

/-- JS Map.set semantics on an association list: overwrite an existing key
in place, otherwise append. -/
def mapSet (m : List (String × String)) (k v : String) : List (String × String) :=
  if m.any (fun p => p.1 = k) then m.map (fun p => if p.1 = k then (k, v) else p)
  else m ++ [(k, v)]

/-- JS Map.get semantics on an association list. -/
def mapGet (m : List (String × String)) (k : String) : Option String :=
  (m.find? (fun p => p.1 = k)).map (·.2)

def foundationModelMarker : String := "foundation-model/"

/-- Process one model reference of a profile: extract the base model id
after the foundation-model marker in the ARN and record the mapping. -/
def addModelRef (profileId : String) (m : List (String × String))
    (ref : InferenceProfileModelRef) : List (String × String) :=
  let arn := ref.modelArn.getD ""
  match restAfterNeedle foundationModelMarker.data arn.data with
  | none => m
  | some rest =>
    let baseId := jsTrim (String.mk rest)
    if baseId = "" then m else mapSet m baseId profileId

/-- Process one profile summary: skip profiles whose id is absent or blank,
otherwise fold over its model references. -/
def addProfile (m : List (String × String)) (profile : InferenceProfileSummary) :
    List (String × String) :=
  match profile.inferenceProfileId.map jsTrim with
  | none => m
  | some pid =>
    if pid = "" then m else (profile.models.getD []).foldl (addModelRef pid) m

/-- Process one page of the profile listing. -/
def addProfilePage (m : List (String × String)) (page : InferenceProfilePage) :
    List (String × String) :=
  (page.inferenceProfileSummaries.getD []).foldl addProfile m

/-- Embedding of the buildInferenceProfileMap loop body. The environment is
a list whose n-th element is the outcome of the n-th remote page request
(ok page or thrown error). The do-while loop issues the first request
unconditionally and continues while the response carries a nextToken; a
thrown error is caught and the mapping accumulated so far is returned. An
exhausted outcome list ends the interaction with the accumulated mapping. -/
def buildInferenceProfileMapGo :
    List (Except Unit InferenceProfilePage) → List (String × String) →
    List (String × String)
  | [], mapping => mapping
  | .error _ :: _, mapping => mapping
  | .ok page :: rest, mapping =>
    let mapping := addProfilePage mapping page
    match page.nextToken with
    | none => mapping
    | some _ => buildInferenceProfileMapGo rest mapping

/-- Embedding of buildInferenceProfileMap: run the paging loop starting
from the empty mapping. -/
def buildInferenceProfileMap (responses : List (Except Unit InferenceProfilePage)) :
    List (String × String) :=
  buildInferenceProfileMapGo responses []

/-- Add an id to the registered-id set (JS Set.add, membership only). -/
def insertId (ids : List String) (x : String) : List String :=
  if x ∈ ids then ids else ids ++ [x]

/-- Embedding of one iteration of the discovery emission loop: skip
summaries that fail the filter; otherwise emit the definition keyed by the
inference-profile id when one is mapped (base id otherwise), and, when a
truthy profile id was used and the base id is not yet registered, also emit
the base-id definition. -/
def processSummaryStep (filter : List String) (profileMap : List (String × String))
    (defaults : DiscoveryDefaults)
    (acc : List ModelDefinitionConfig × List String) (summary : BedrockModelSummary) :
    List ModelDefinitionConfig × List String :=
  if ¬ shouldIncludeSummary summary filter then acc
  else
    let discovered := acc.1
    let registeredIds := acc.2
    let baseId := (summary.modelId.map jsTrim).getD ""
    let profileId := mapGet profileMap baseId
    let defn := toModelDefinition summary defaults profileId
    let discovered := discovered ++ [defn]
    let registeredIds := insertId registeredIds defn.id
    if (profileId.getD "") ≠ "" ∧ baseId ∉ registeredIds then
      (discovered ++ [toModelDefinition summary defaults none], insertId registeredIds baseId)
    else (discovered, registeredIds)

/-- Embedding of the discovery emission loop over all model summaries. -/
def processSummaries (summaries : List BedrockModelSummary) (filter : List String)
    (profileMap : List (String × String)) (defaults : DiscoveryDefaults) :
    List ModelDefinitionConfig × List String :=
  summaries.foldl (processSummaryStep filter profileMap defaults) ([], [])

/-- Embedding of normalizeProviderFilter: trim and lower-case each entry,
drop blank entries, de-duplicate, and sort. The JS code de-duplicates via a
Set before sorting; since the sorted output depends only on the set of
entries, the order in which duplicates are kept is immaterial. -/
def normalizeProviderFilter (filter : Option (List String)) : List String :=
  match filter with
  | none => []
  | some l =>
    if l = [] then []
    else
      List.insertionSort (fun a b => a ≤ b)
        (((l.map (fun entry => jsToLower (jsTrim entry))).filter
          (fun entry => entry ≠ "")).dedup)

/-- The record serialized (JSON.stringify with fixed key order, an
injective encoding on this record type) to form the discovery cache key;
the key is therefore modelled by the record itself. -/
structure CacheKeyParams where
  region : String
  providerFilter : List String
  refreshIntervalSeconds : Int
  defaultContextWindow : Int
  defaultMaxTokens : Int
deriving DecidableEq

/-- Embedding of buildCacheKey: the serialization is injective, so the key
is the record. -/
def buildCacheKey (params : CacheKeyParams) : CacheKeyParams := params

/-- A discovery cache entry: absolute expiry, optional resolved value,
optional in-flight fetch (identified by a promise id). -/
structure BedrockDiscoveryCacheEntry where
  expiresAt : Int
  value : Option (List ModelDefinitionConfig) := none
  inFlight : Option Nat := none

/-- The module-level mutable state of the discovery cache: the map from
cache key to entry, a counter supplying fresh promise ids, the number of
remote fetches issued so far (instrumentation for counting fetches), and
the once-per-process warning flag. -/
structure DiscoveryState where
  cache : CacheKeyParams → Option BedrockDiscoveryCacheEntry
  nextPromiseId : Nat
  fetchCount : Nat
  hasLoggedBedrockError : Bool

/-- Update one key of the cache map. -/
def cacheSet (cache : CacheKeyParams → Option BedrockDiscoveryCacheEntry)
    (key : CacheKeyParams) (entry : Option BedrockDiscoveryCacheEntry) :
    CacheKeyParams → Option BedrockDiscoveryCacheEntry :=
  fun k => if k = key then entry else cache k

/-- Parameters of a discoverBedrockModels call. -/
structure DiscoverParams where
  region : String
  config : Option BedrockDiscoveryConfig := none

/-- Effective refresh interval: floor of the configured value (identity on
integers), defaulting to 3600, clamped to be non-negative. -/
def effRefreshIntervalSeconds (params : DiscoverParams) : Int :=
  max 0 ((params.config.bind (·.refreshInterval)).getD DEFAULT_REFRESH_INTERVAL_SECONDS)

/-- The cache key derived by a discoverBedrockModels call. -/
def discoverCacheKey (params : DiscoverParams) : CacheKeyParams :=
  buildCacheKey
    { region := params.region
      providerFilter := normalizeProviderFilter (params.config.bind (·.providerFilter))
      refreshIntervalSeconds := effRefreshIntervalSeconds params
      defaultContextWindow := resolveDefaultContextWindow params.config
      defaultMaxTokens := resolveDefaultMaxTokens params.config }

/-- What the synchronous part of a discoverBedrockModels call returns: a
fresh cached value, the pending promise of an in-flight fetch, or a newly
started fetch (identified by its promise id). -/
inductive DiscoverOutcome where
  | cachedValue : List ModelDefinitionConfig → DiscoverOutcome
  | joined : Nat → DiscoverOutcome
  | started : Nat → DiscoverOutcome

/-- Start a new fetch: allocate a promise id, count the remote fetch, and
when the interval is positive store an in-flight entry under the key. -/
def startFetch (s : DiscoveryState) (key : CacheKeyParams) (interval : Int)
    (now : Int) : DiscoverOutcome × DiscoveryState :=
  let p := s.nextPromiseId
  let cache :=
    if interval > 0 then
      cacheSet s.cache key (some { expiresAt := now + interval * 1000, inFlight := some p })
    else s.cache
  (.started p,
   { s with cache := cache, nextPromiseId := p + 1, fetchCount := s.fetchCount + 1 })

/-- Embedding of the synchronous part of discoverBedrockModels: with a
positive interval, a cached unexpired value is served as is; otherwise an
in-flight promise is joined; otherwise (and always when the interval is
zero) a new fetch is started. -/
def discoverStep (s : DiscoveryState) (params : DiscoverParams) (now : Int) :
    DiscoverOutcome × DiscoveryState :=
  let interval := effRefreshIntervalSeconds params
  let key := discoverCacheKey params
  if interval > 0 then
    match s.cache key with
    | some cached =>
      match cached.value with
      | some v =>
        if cached.expiresAt > now then (.cachedValue v, s)
        else
          match cached.inFlight with
          | some p => (.joined p, s)
          | none => startFetch s key interval now
      | none =>
        match cached.inFlight with
        | some p => (.joined p, s)
        | none => startFetch s key interval now
    | none => startFetch s key interval now
  else startFetch s key interval now

/-- Embedding of the success continuation of discoverBedrockModels: the
awaited value is returned, and with a positive interval the entry is
replaced by a value-only entry whose expiry uses the now captured at call
start. -/
def discoverResolve (s : DiscoveryState) (params : DiscoverParams) (now : Int)
    (value : List ModelDefinitionConfig) : List ModelDefinitionConfig × DiscoveryState :=
  let interval := effRefreshIntervalSeconds params
  let key := discoverCacheKey params
  if interval > 0 then
    (value,
     { s with cache :=
        cacheSet s.cache key (some { expiresAt := now + interval * 1000, value := some value }) })
  else (value, s)

/-- Embedding of the catch branch of discoverBedrockModels: the caller
receives the empty list, the entry (if the interval is positive) is
deleted, and the once-per-process warning flag is set. -/
def discoverReject (s : DiscoveryState) (params : DiscoverParams) :
    List ModelDefinitionConfig × DiscoveryState :=
  let interval := effRefreshIntervalSeconds params
  let key := discoverCacheKey params
  let s1 :=
    if interval > 0 then { s with cache := cacheSet s.cache key none } else s
  ([], { s1 with hasLoggedBedrockError := true })

/-- The value found at embeddings[0].embedding in the decoded response
under JavaScript access semantics: the body must be an object whose
embeddings field is either an array with a first element or an object with
a property named "0", and that element must be an object carrying an
embedding field; nothing otherwise. Written path-style, independently of
the implementation's chain of accessors, to compare against it. -/
def specEmbedPath (body : JsonValue) : Option JsonValue :=
  match body with
  | .jobj fields =>
    match lookupField fields "embeddings" with
    | some (.jarr (first :: _)) =>
      match first with
      | .jobj f2 => lookupField f2 "embedding"
      | _ => none
    | some (.jobj efields) =>
      match lookupField efields "0" with
      | some (.jobj f2) => lookupField f2 "embedding"
      | _ => none
    | _ => none
  | _ => none

/-- Spec-side result of response handling: the value at
embeddings[0].embedding when a non-nullish one is present, the empty array
otherwise. -/
def specEmbedResult (body : JsonValue) : JsonValue :=
  match specEmbedPath body with
  | none => .jarr []
  | some .jnull => .jarr []
  | some v => v

/-- The multiset of normalized (trimmed, lower-cased) non-blank provider
filter entries; the cache key depends on the filter only through the set of
these entries. -/
def normalizedEntrySet (l : List String) : List String :=
  (l.map (fun entry => jsToLower (jsTrim entry))).filter (fun entry => entry ≠ "")

/-- A first inference-profile page carrying one mapping and a continuation
token, used as a concrete input. -/
def c5Page1 : InferenceProfilePage :=
  { inferenceProfileSummaries :=
      some [{ inferenceProfileId := some "p1"
              models := some [{ modelArn := some "arn:aws:bedrock:us-east-1::foundation-model/m1" }] }]
    nextToken := some "token" }

/-- The empty discovery state (cache empty, no fetch issued yet). -/
def emptyDiscoveryState : DiscoveryState :=
  { cache := fun _ => none, nextPromiseId := 0, fetchCount := 0, hasLoggedBedrockError := false }

/-- Concrete discover parameters with no configuration (so the default
3600-second refresh interval applies). -/
def defaultDiscoverParams : DiscoverParams := { region := "us-east-1" }

/-- Concrete discover parameters with a zero refresh interval. -/
def zeroIntervalParams : DiscoverParams :=
  { region := "us-east-1", config := some { refreshInterval := some 0 } }

/-- A concrete model summary that passes every filter. -/
def sampleSummary : BedrockModelSummary :=
  { modelId := some "anthropic.claude-x"
    modelName := some "Claude X"
    providerName := some "Anthropic"
    inputModalities := some ["TEXT"]
    outputModalities := some ["TEXT"]
    responseStreamingSupported := some true
    modelLifecycle := some { status := some "ACTIVE" } }

/-- Concrete discovery defaults. -/
def sampleDefaults : DiscoveryDefaults := { contextWindow := 32000, maxTokens := 4096 }

end BedrockAdapter

namespace BedrockAdapter

theorem trimLeftChars_length_le (l : List Char) : (trimLeftChars l).length ≤ l.length := by
  induction l with
  | nil => simp [trimLeftChars]
  | cons c cs ih =>
    by_cases hc : c.isWhitespace
    · simpa [trimLeftChars, hc] using Nat.le_succ_of_le ih
    · simp [trimLeftChars, hc]

theorem trimLeftChars_eq_self_of_length (l : List Char)
    (h : (trimLeftChars l).length = l.length) : trimLeftChars l = l := by
  cases l with
  | nil => rfl
  | cons c cs =>
    by_cases hc : c.isWhitespace
    · exfalso
      have hle := trimLeftChars_length_le cs
      simp [trimLeftChars, hc] at h
      omega
    · simp [trimLeftChars, hc]

theorem head_not_ws_of_trimLeft_fix {c : Char} {cs : List Char}
    (h : trimLeftChars (c :: cs) = c :: cs) : ¬ c.isWhitespace = true := by
  intro hc
  have hle := trimLeftChars_length_le cs
  have hlen := congrArg List.length h
  simp [trimLeftChars, hc] at hlen
  omega

theorem trimLeftChars_cons_of_not_ws {c : Char} (cs : List Char)
    (hc : ¬ c.isWhitespace = true) : trimLeftChars (c :: cs) = c :: cs := by
  simp [trimLeftChars, hc]

theorem trimLeftChars_eq_nil_of_all_ws (l : List Char) (h : ∀ c ∈ l, c.isWhitespace) :
    trimLeftChars l = [] := by
  induction l with
  | nil => rfl
  | cons c cs ih =>
    have hc : c.isWhitespace = true := h c (by simp)
    simp only [trimLeftChars, hc, if_true]
    exact ih (fun x hx => h x (by simp [hx]))

theorem jsTrim_fix_parts {X : String} (h : jsTrim X = X) :
    trimLeftChars X.data = X.data ∧ trimLeftChars X.data.reverse = X.data.reverse := by
  have hdata : (trimLeftChars ((trimLeftChars X.data).reverse)).reverse = X.data :=
    congrArg String.data h
  have h1 : (trimLeftChars ((trimLeftChars X.data).reverse)).length = X.data.length := by
    simpa using congrArg List.length hdata
  have h2 : (trimLeftChars ((trimLeftChars X.data).reverse)).length ≤
      (trimLeftChars X.data).length := by
    simpa using trimLeftChars_length_le (trimLeftChars X.data).reverse
  have h3 : (trimLeftChars X.data).length ≤ X.data.length := trimLeftChars_length_le X.data
  have haa : trimLeftChars X.data = X.data := trimLeftChars_eq_self_of_length _ (by omega)
  refine ⟨haa, ?_⟩
  rw [haa] at hdata
  calc trimLeftChars X.data.reverse
      = ((trimLeftChars X.data.reverse).reverse).reverse := by rw [List.reverse_reverse]
    _ = X.data.reverse := by rw [hdata]

theorem string_data_ne_nil {X : String} (h : X ≠ "") : X.data ≠ [] := by
  intro hd
  apply h
  cases X with
  | mk d =>
    simp only [String.data] at hd
    rw [hd]

theorem jsTrim_append_marker {X : String} (hne : X ≠ "") (htrim : jsTrim X = X) :
    jsTrim (bedrockMarker ++ X) = bedrockMarker ++ X := by
  obtain ⟨hL, hR⟩ := jsTrim_fix_parts htrim
  have hXd : X.data ≠ [] := string_data_ne_nil hne
  have hXr : X.data.reverse ≠ [] := by simpa using hXd
  obtain ⟨rc, rcs, hr⟩ := List.exists_cons_of_ne_nil hXr
  have hrc : ¬ rc.isWhitespace = true := by
    apply @head_not_ws_of_trimLeft_fix rc rcs
    rw [← hr]
    exact hR
  have hdataApp : (bedrockMarker ++ X).data = bedrockMarker.data ++ X.data := by
    cases X with
    | mk d => rfl
  have hmk : bedrockMarker.data = 'b' :: "edrock/".data := rfl
  have step1 : trimLeftChars ((bedrockMarker ++ X).data) = bedrockMarker.data ++ X.data := by
    rw [hdataApp, hmk, List.cons_append]
    exact trimLeftChars_cons_of_not_ws _ (by decide)
  have step2 : trimLeftChars ((bedrockMarker.data ++ X.data).reverse) =
      (bedrockMarker.data ++ X.data).reverse := by
    rw [List.reverse_append, hr, List.cons_append]
    exact trimLeftChars_cons_of_not_ws _ hrc
  show String.mk ((trimLeftChars ((trimLeftChars (bedrockMarker ++ X).data).reverse)).reverse) =
    bedrockMarker ++ X
  rw [step1, step2, List.reverse_reverse, ← hdataApp]

theorem isPrefixOf_append_self (l t : List Char) : l.isPrefixOf (l ++ t) = true := by
  induction l with
  | nil => cases t <;> rfl
  | cons a as ih =>
    show (a == a && as.isPrefixOf (as ++ t)) = true
    simp [ih]

end BedrockAdapter

namespace BedrockAdapter

/-- Claim C1 counterexample: the claim says response handling never throws,
but on the decoded response body JSON null (a valid JSON.parse output) the
unguarded property access in parseNova2Response throws a TypeError. -/
theorem c1_counterexample :
    parseNova2Response JsonValue.jnull = Except.error () := rfl

/-- Claim C1 (amended): for every decoded response body other than JSON
null, parseNova2Response returns without throwing, and its result is the
value at embeddings[0].embedding — under JavaScript access semantics, so
index 0 of an array as well as property "0" of an object — when a
non-nullish one is present, and the empty vector otherwise. -/
theorem c1_parse_no_throw (body : JsonValue) (h : body ≠ JsonValue.jnull) :
    parseNova2Response body = Except.ok (specEmbedResult body) := by
  cases body with
  | jnull => exact absurd rfl h
  | jbool b => rfl
  | jnum n => rfl
  | jstr s => rfl
  | jarr xs => rfl
  | jobj fields =>
    rcases hl : lookupField fields "embeddings" with _ | v
    · simp [parseNova2Response, jsGetProp, jsIndexZero, jsOptProp, specEmbedResult,
        specEmbedPath, hl]
    · cases v with
      | jarr xs =>
        cases xs with
        | nil =>
          simp [parseNova2Response, jsGetProp, jsIndexZero, jsOptProp, specEmbedResult,
            specEmbedPath, hl]
        | cons x rest =>
          cases x with
          | jobj f2 =>
            rcases he : lookupField f2 "embedding" with _ | w
            · simp [parseNova2Response, jsGetProp, jsIndexZero, jsOptProp, specEmbedResult,
                specEmbedPath, hl, he]
            · cases w <;>
                simp [parseNova2Response, jsGetProp, jsIndexZero, jsOptProp, specEmbedResult,
                  specEmbedPath, hl, he]
          | jnull =>
            simp [parseNova2Response, jsGetProp, jsIndexZero, jsOptProp, specEmbedResult,
              specEmbedPath, hl]
          | jbool b =>
            simp [parseNova2Response, jsGetProp, jsIndexZero, jsOptProp, specEmbedResult,
              specEmbedPath, hl]
          | jnum n =>
            simp [parseNova2Response, jsGetProp, jsIndexZero, jsOptProp, specEmbedResult,
              specEmbedPath, hl]
          | jstr t =>
            cases ht : t.data <;>
              simp [parseNova2Response, jsGetProp, jsIndexZero, jsOptProp, specEmbedResult,
                specEmbedPath, hl, ht]
          | jarr ys =>
            simp [parseNova2Response, jsGetProp, jsIndexZero, jsOptProp, specEmbedResult,
              specEmbedPath, hl]
      | jstr s =>
        cases hs : s.data <;>
          simp [parseNova2Response, jsGetProp, jsIndexZero, jsOptProp, specEmbedResult,
            specEmbedPath, hl, hs]
      | jnull =>
        simp [parseNova2Response, jsGetProp, jsIndexZero, jsOptProp, specEmbedResult,
          specEmbedPath, hl]
      | jbool b =>
        simp [parseNova2Response, jsGetProp, jsIndexZero, jsOptProp, specEmbedResult,
          specEmbedPath, hl]
      | jnum n =>
        simp [parseNova2Response, jsGetProp, jsIndexZero, jsOptProp, specEmbedResult,
          specEmbedPath, hl]
      | jobj efields =>
        rcases h0 : lookupField efields "0" with _ | w0
        · simp [parseNova2Response, jsGetProp, jsIndexZero, jsOptProp, specEmbedResult,
            specEmbedPath, hl, h0]
        · cases w0 with
          | jobj f2 =>
            rcases he : lookupField f2 "embedding" with _ | w
            · simp [parseNova2Response, jsGetProp, jsIndexZero, jsOptProp, specEmbedResult,
                specEmbedPath, hl, h0, he]
            · cases w <;>
                simp [parseNova2Response, jsGetProp, jsIndexZero, jsOptProp, specEmbedResult,
                  specEmbedPath, hl, h0, he]
          | jnull =>
            simp [parseNova2Response, jsGetProp, jsIndexZero, jsOptProp, specEmbedResult,
              specEmbedPath, hl, h0]
          | jbool b =>
            simp [parseNova2Response, jsGetProp, jsIndexZero, jsOptProp, specEmbedResult,
              specEmbedPath, hl, h0]
          | jnum n =>
            simp [parseNova2Response, jsGetProp, jsIndexZero, jsOptProp, specEmbedResult,
              specEmbedPath, hl, h0]
          | jstr t =>
            simp [parseNova2Response, jsGetProp, jsIndexZero, jsOptProp, specEmbedResult,
              specEmbedPath, hl, h0]
          | jarr ys =>
            simp [parseNova2Response, jsGetProp, jsIndexZero, jsOptProp, specEmbedResult,
              specEmbedPath, hl, h0]

/-- Claim C1 witness: a concrete decodable body without the expected shape
is handled without throwing and yields the empty vector. -/
theorem c1_witness :
    parseNova2Response (JsonValue.jobj []) = Except.ok (JsonValue.jarr []) := by
  have h := c1_parse_no_throw (JsonValue.jobj []) (fun hcontra => JsonValue.noConfusion hcontra)
  simpa [specEmbedResult, specEmbedPath, lookupField] using h

end BedrockAdapter

namespace BedrockAdapter

/-- Claim C8 counterexample: X = " a" is non-empty and does not carry the
bedrock/ marker, yet normalizing "bedrock/" ++ X yields " a" while
normalizing X alone yields "a", so the two normalizations do not both
yield X as the claim states. -/
theorem c8_counterexample :
    (" a" : String) ≠ "" ∧
    bedrockMarker.data.isPrefixOf (" a" : String).data = false ∧
    normalizeBedrockModel (bedrockMarker ++ " a") = " a" ∧
    normalizeBedrockModel " a" = "a" ∧
    normalizeBedrockModel " a" ≠ " a" := by
  refine ⟨by decide, by decide, by decide, by decide, by decide⟩

/-- Claim C8 (amended): for every non-empty string X that is already
trimmed (its own trim is itself) and does not carry the bedrock/ marker,
normalizing bedrockMarker ++ X and normalizing X both yield exactly X; and
normalizing a whitespace-only (in particular empty) string yields the
fixed default model id. -/
theorem c8_normalize_agreement (X : String) (hne : X ≠ "") (htrim : jsTrim X = X)
    (hnm : bedrockMarker.data.isPrefixOf X.data = false) :
    normalizeBedrockModel (bedrockMarker ++ X) = X ∧
    normalizeBedrockModel X = X ∧
    (∀ s : String, (∀ c ∈ s.data, c.isWhitespace) →
      normalizeBedrockModel s = DEFAULT_BEDROCK_EMBEDDING_MODEL) := by
  have hdataApp : (bedrockMarker ++ X).data = bedrockMarker.data ++ X.data := by
    cases X with | mk d => rfl
  have hmarkerData : bedrockMarker.data ≠ [] := by decide
  have happ := jsTrim_append_marker hne htrim
  refine ⟨?_, ?_, ?_⟩
  · have hne2 : bedrockMarker ++ X ≠ "" := by
      intro hcontra
      have hd := congrArg String.data hcontra
      rw [hdataApp] at hd
      exact hmarkerData (List.append_eq_nil.mp hd).1
    have hmkX : String.mk X.data = X := by cases X with | mk d => rfl
    have hlen : bedrockMarker.length = bedrockMarker.data.length := rfl
    simp only [normalizeBedrockModel, happ, if_neg hne2, hdataApp,
      isPrefixOf_append_self, if_true, hlen, List.drop_left, hmkX]
  · simp [normalizeBedrockModel, htrim, hne, hnm]
  · intro s hws
    have h0 : trimLeftChars s.data = [] := trimLeftChars_eq_nil_of_all_ws s.data hws
    have hts : jsTrim s = "" := by
      unfold jsTrim
      rw [h0]
      rfl
    simp [normalizeBedrockModel, hts]

/-- Claim C8 witness: the amended agreement at the concrete trimmed string
"x" and the whitespace-only string "  ". -/
theorem c8_witness :
    normalizeBedrockModel (bedrockMarker ++ "x") = "x" ∧
    normalizeBedrockModel "x" = "x" ∧
    normalizeBedrockModel "  " = DEFAULT_BEDROCK_EMBEDDING_MODEL :=
  ⟨(c8_normalize_agreement "x" (by decide) (by decide) (by decide)).1,
   (c8_normalize_agreement "x" (by decide) (by decide) (by decide)).2.1,
   (c8_normalize_agreement "x" (by decide) (by decide) (by decide)).2.2 "  " (by decide)⟩

end BedrockAdapter

namespace BedrockAdapter

theorem includesTextModalities_eq_false_iff (mods : Option (List String)) :
    includesTextModalities mods = false ↔ ∀ m ∈ mods.getD [], jsToLower m ≠ "text" := by
  simp [includesTextModalities]

theorem isActive_eq_false_iff (summary : BedrockModelSummary) :
    isActive summary = false ↔
      ∀ st, summary.modelLifecycle.bind (fun lc => lc.status) = some st →
        jsToUpper st ≠ "ACTIVE" := by
  cases h : summary.modelLifecycle with
  | none => simp [isActive, h]
  | some lc =>
    cases h2 : lc.status with
    | none => simp [isActive, h, h2]
    | some st => simp [isActive, h, h2]

theorem blankModelId_iff (summary : BedrockModelSummary) :
    ((summary.modelId.map jsTrim).getD "" = "") ↔
      ∀ mid, summary.modelId = some mid → jsTrim mid = "" := by
  cases h : summary.modelId <;> simp [h]

theorem shouldIncludeSummary_eq_true_iff (summary : BedrockModelSummary)
    (filter : List String) :
    shouldIncludeSummary summary filter = true ↔
      ((summary.modelId.map jsTrim).getD "" ≠ "" ∧
       matchesProviderFilter summary filter = true ∧
       summary.responseStreamingSupported = some true ∧
       includesTextModalities summary.outputModalities = true ∧
       isActive summary = true) := by
  unfold shouldIncludeSummary
  split_ifs with h1 h2 h3 h4 h5 <;> simp_all

/-- Claim C6: a foundation-model summary is excluded from discovery if and
only if it has no non-blank model id, or it fails the provider-name
filter, or its response-streaming flag is not true, or no output modality
is text case-insensitively, or its lifecycle status is not ACTIVE
case-insensitively. -/
theorem c6_exclusion_iff (summary : BedrockModelSummary) (filter : List String) :
    shouldIncludeSummary summary filter = false ↔
      ((∀ mid, summary.modelId = some mid → jsTrim mid = "") ∨
       matchesProviderFilter summary filter = false ∨
       summary.responseStreamingSupported ≠ some true ∨
       (∀ m ∈ summary.outputModalities.getD [], jsToLower m ≠ "text") ∨
       (∀ st, summary.modelLifecycle.bind (fun lc => lc.status) = some st →
         jsToUpper st ≠ "ACTIVE")) := by
  rw [← Bool.not_eq_true, shouldIncludeSummary_eq_true_iff, ← blankModelId_iff,
    ← includesTextModalities_eq_false_iff, ← isActive_eq_false_iff]
  simp only [Bool.eq_false_iff]
  tauto

/-- Claim C9: with a non-empty filter and no provider name on the summary,
the filter is applied to the model-id part before the first dot: the
summary matches exactly when the model id is present and its normalized
before-dot part is non-blank and a member of the filter. -/
theorem c9_provider_fallback (summary : BedrockModelSummary) (filter : List String)
    (hf : filter ≠ []) (hp : summary.providerName = none) :
    matchesProviderFilter summary filter = true ↔
      ∃ mid, summary.modelId = some mid ∧ jsToLower (jsTrim (splitHeadDot mid)) ≠ "" ∧
        jsToLower (jsTrim (splitHeadDot mid)) ∈ filter := by
  unfold matchesProviderFilter
  rw [if_neg hf, hp]
  cases h : summary.modelId with
  | none => simp [h]
  | some mid =>
    by_cases hz : jsToLower (jsTrim (splitHeadDot mid)) = ""
    · simp [h, hz]
    · simp [h, hz, List.elem_iff]

/-- A concrete summary with no provider name, used by the C9 witness. -/
def c9Summary : BedrockModelSummary := { modelId := some "anthropic.claude-x" }

/-- Claim C9 witness: the fallback provider name anthropic derived from
the model id matches the filter. -/
theorem c9_witness : matchesProviderFilter c9Summary ["anthropic"] = true := by
  have h := c9_provider_fallback c9Summary ["anthropic"] (by decide) rfl
  exact h.mpr ⟨"anthropic.claude-x", rfl, by decide, by decide⟩

end BedrockAdapter

namespace BedrockAdapter

theorem mem_insertId {ids : List String} {x a : String} :
    a ∈ insertId ids x ↔ a ∈ ids ∨ a = x := by
  unfold insertId
  split_ifs with h
  · constructor
    · exact fun ha => Or.inl ha
    · rintro (ha | rfl)
      · exact ha
      · exact h
  · simp [List.mem_append]

theorem processSummaryStep_included (filter : List String)
    (profileMap : List (String × String)) (defaults : DiscoveryDefaults)
    (discovered : List ModelDefinitionConfig) (registeredIds : List String)
    (summary : BedrockModelSummary)
    (hinc : shouldIncludeSummary summary filter = true) :
    processSummaryStep filter profileMap defaults (discovered, registeredIds) summary =
      (let baseId := (summary.modelId.map jsTrim).getD ""
       let profileId := mapGet profileMap baseId
       let defn := toModelDefinition summary defaults profileId
       let discovered2 := discovered ++ [defn]
       let registeredIds2 := insertId registeredIds defn.id
       if (profileId.getD "") ≠ "" ∧ baseId ∉ registeredIds2 then
         (discovered2 ++ [toModelDefinition summary defaults none],
          insertId registeredIds2 baseId)
       else (discovered2, registeredIds2)) := by
  unfold processSummaryStep
  rw [if_neg (not_not_intro hinc)]

/-- Claim C7: a surviving summary with a (truthy) mapped inference profile
emits two definitions, one keyed by the profile id and one keyed by the
base model id, unless the base id has already been registered (or equals
the profile id just registered), in which case only the profile-keyed one
is emitted; a surviving summary with no mapped profile emits exactly one
definition keyed by its base id. -/
theorem c7_emission (filter : List String) (profileMap : List (String × String))
    (defaults : DiscoveryDefaults) (discovered : List ModelDefinitionConfig)
    (registeredIds : List String) (summary : BedrockModelSummary)
    (hinc : shouldIncludeSummary summary filter = true) :
    ((∀ pid, mapGet profileMap ((summary.modelId.map jsTrim).getD "") = some pid →
        pid ≠ "" →
        (summary.modelId.map jsTrim).getD "" ∉ registeredIds →
        (summary.modelId.map jsTrim).getD "" ≠ pid →
        (processSummaryStep filter profileMap defaults (discovered, registeredIds) summary).1 =
          discovered ++ [toModelDefinition summary defaults (some pid),
            toModelDefinition summary defaults none] ∧
        (toModelDefinition summary defaults (some pid)).id = pid ∧
        (toModelDefinition summary defaults none).id =
          (summary.modelId.map jsTrim).getD "") ∧
     (∀ pid, mapGet profileMap ((summary.modelId.map jsTrim).getD "") = some pid →
        pid ≠ "" →
        ((summary.modelId.map jsTrim).getD "" ∈ registeredIds ∨
         (summary.modelId.map jsTrim).getD "" = pid) →
        (processSummaryStep filter profileMap defaults (discovered, registeredIds) summary).1 =
          discovered ++ [toModelDefinition summary defaults (some pid)]) ∧
     (mapGet profileMap ((summary.modelId.map jsTrim).getD "") = none →
        (processSummaryStep filter profileMap defaults (discovered, registeredIds) summary).1 =
          discovered ++ [toModelDefinition summary defaults none] ∧
        (toModelDefinition summary defaults none).id =
          (summary.modelId.map jsTrim).getD "")) := by
  rw [processSummaryStep_included filter profileMap defaults discovered registeredIds
    summary hinc]
  refine ⟨?_, ?_, ?_⟩
  · intro pid hmap hpid hnotmem hne
    simp only [hmap]
    rw [if_pos]
    · refine ⟨by simp [List.append_assoc], rfl, rfl⟩
    · refine ⟨by simpa using hpid, ?_⟩
      have hid : (toModelDefinition summary defaults (some pid)).id = pid := rfl
      rw [hid, mem_insertId]
      rintro (hmem | heq)
      · exact hnotmem hmem
      · exact hne heq
  · intro pid hmap hpid hcase
    simp only [hmap]
    rw [if_neg]
    intro hcond
    have hid : (toModelDefinition summary defaults (some pid)).id = pid := rfl
    rw [hid, mem_insertId] at hcond
    rcases hcase with hmem | heq
    · exact hcond.2 (Or.inl hmem)
    · exact hcond.2 (Or.inr heq)
  · intro hmap
    simp only [hmap]
    rw [if_neg]
    · exact ⟨rfl, rfl⟩
    · simp

/-- A concrete profile map for the C7 witness. -/
def c7Map : List (String × String) := [("anthropic.claude-x", "us.anthropic.claude-x")]

/-- Claim C7 witness: a concrete surviving summary with a mapped profile
and an empty registered set emits both the profile-keyed and the
base-keyed definitions. -/
theorem c7_witness :
    (processSummaryStep [] c7Map sampleDefaults ([], []) sampleSummary).1 =
      [toModelDefinition sampleSummary sampleDefaults (some "us.anthropic.claude-x"),
       toModelDefinition sampleSummary sampleDefaults none] := by
  have h := (c7_emission [] c7Map sampleDefaults [] [] sampleSummary (by decide)).1
    "us.anthropic.claude-x" rfl (by decide) (by simp) (by decide)
  simpa using h.1

end BedrockAdapter

namespace BedrockAdapter

/-- Claim C2: starting from a key with no cache entry and a positive
refresh interval, the first call starts one remote fetch and stores it
in flight; a second call with identical parameters while the fetch is
unresolved joins the very same pending promise, changes nothing, and
issues no further fetch — one underlying remote fetch in total. -/
theorem c2_inflight_dedup (s0 : DiscoveryState) (params : DiscoverParams)
    (now1 now2 : Int)
    (hi : effRefreshIntervalSeconds params > 0)
    (hempty : s0.cache (discoverCacheKey params) = none) :
    (discoverStep s0 params now1).1 = DiscoverOutcome.started s0.nextPromiseId ∧
    (discoverStep s0 params now1).2.fetchCount = s0.fetchCount + 1 ∧
    (discoverStep (discoverStep s0 params now1).2 params now2).1 =
      DiscoverOutcome.joined s0.nextPromiseId ∧
    (discoverStep (discoverStep s0 params now1).2 params now2).2 =
      (discoverStep s0 params now1).2 := by
  have hstep : discoverStep s0 params now1 =
      (DiscoverOutcome.started s0.nextPromiseId,
       { s0 with
          cache := cacheSet s0.cache (discoverCacheKey params)
            (some { expiresAt := now1 + effRefreshIntervalSeconds params * 1000,
                    value := none, inFlight := some s0.nextPromiseId })
          nextPromiseId := s0.nextPromiseId + 1
          fetchCount := s0.fetchCount + 1 }) := by
    simp only [discoverStep, if_pos hi, hempty, startFetch]
  rw [hstep]
  refine ⟨rfl, rfl, ?_, ?_⟩ <;>
    simp [discoverStep, if_pos hi, cacheSet]

/-- Claim C2 witness: the two-call scenario at the empty state with the
default parameters. -/
theorem c2_witness :
    (discoverStep emptyDiscoveryState defaultDiscoverParams 1).1 =
      DiscoverOutcome.started emptyDiscoveryState.nextPromiseId ∧
    (discoverStep emptyDiscoveryState defaultDiscoverParams 1).2.fetchCount =
      emptyDiscoveryState.fetchCount + 1 ∧
    (discoverStep (discoverStep emptyDiscoveryState defaultDiscoverParams 1).2
        defaultDiscoverParams 2).1 =
      DiscoverOutcome.joined emptyDiscoveryState.nextPromiseId ∧
    (discoverStep (discoverStep emptyDiscoveryState defaultDiscoverParams 1).2
        defaultDiscoverParams 2).2 =
      (discoverStep emptyDiscoveryState defaultDiscoverParams 1).2 :=
  c2_inflight_dedup emptyDiscoveryState defaultDiscoverParams 1 2 (by decide) rfl

/-- Claim C3: with a positive interval, a cached value with expiry
strictly after now is served unchanged with no fetch; an expired cached
value (no fetch in flight) triggers exactly one new fetch; with a zero
effective interval every lookup starts a fresh fetch, the cache map is
never modified, and a resolving fetch stores nothing. -/
theorem c3_cache_ttl (s : DiscoveryState) (params : DiscoverParams) (now : Int)
    (v : List ModelDefinitionConfig) (e : BedrockDiscoveryCacheEntry) :
    ((effRefreshIntervalSeconds params > 0 →
      s.cache (discoverCacheKey params) = some e → e.value = some v →
      e.expiresAt > now →
      discoverStep s params now = (DiscoverOutcome.cachedValue v, s)) ∧
     (effRefreshIntervalSeconds params > 0 →
      s.cache (discoverCacheKey params) = some e → e.value = some v →
      ¬(e.expiresAt > now) → e.inFlight = none →
      (discoverStep s params now).1 = DiscoverOutcome.started s.nextPromiseId ∧
      (discoverStep s params now).2.fetchCount = s.fetchCount + 1) ∧
     (effRefreshIntervalSeconds params = 0 →
      (discoverStep s params now).1 = DiscoverOutcome.started s.nextPromiseId ∧
      (discoverStep s params now).2.fetchCount = s.fetchCount + 1 ∧
      (discoverStep s params now).2.cache = s.cache ∧
      ∀ value, (discoverResolve s params now value).1 = value ∧
               (discoverResolve s params now value).2.cache = s.cache)) := by
  obtain ⟨ea, ev, ei⟩ := e
  refine ⟨?_, ?_, ?_⟩
  · intro hi hc hv hexp
    simp only at hv
    subst hv
    simp only [discoverStep, if_pos hi, hc, if_pos hexp]
  · intro hi hc hv hexp hif
    simp only at hv hif
    subst hv
    subst hif
    simp [discoverStep, if_pos hi, hc, if_neg hexp, startFetch]
  · intro h0
    have hneg : ¬ effRefreshIntervalSeconds params > 0 := by omega
    refine ⟨?_, ?_, ?_, ?_⟩
    · simp only [discoverStep, if_neg hneg, startFetch, if_neg hneg]
    · simp only [discoverStep, if_neg hneg, startFetch, if_neg hneg]
    · simp only [discoverStep, if_neg hneg, startFetch, if_neg hneg]
    · intro value
      constructor
      · simp only [discoverResolve, if_neg hneg]
      · simp only [discoverResolve, if_neg hneg]

/-- A cached entry holding a resolved empty list, expiring at time 100. -/
def c3Entry : BedrockDiscoveryCacheEntry :=
  { expiresAt := 100, value := some [], inFlight := none }

/-- A discovery state whose cache holds c3Entry under the default key. -/
def c3State : DiscoveryState :=
  { cache := fun k => if k = discoverCacheKey defaultDiscoverParams then some c3Entry else none
    nextPromiseId := 0
    fetchCount := 0
    hasLoggedBedrockError := false }

/-- Claim C3 witness: the fresh-hit case at time 50, the expired case at
time 150, and the zero-interval case at the empty state. -/
theorem c3_witness :
    discoverStep c3State defaultDiscoverParams 50 =
      (DiscoverOutcome.cachedValue [], c3State) ∧
    (discoverStep c3State defaultDiscoverParams 150).1 =
      DiscoverOutcome.started c3State.nextPromiseId ∧
    (discoverStep c3State defaultDiscoverParams 150).2.fetchCount =
      c3State.fetchCount + 1 ∧
    (discoverStep emptyDiscoveryState zeroIntervalParams 7).1 =
      DiscoverOutcome.started emptyDiscoveryState.nextPromiseId ∧
    (discoverStep emptyDiscoveryState zeroIntervalParams 7).2.cache =
      emptyDiscoveryState.cache := by
  have h50 := c3_cache_ttl c3State defaultDiscoverParams 50 [] c3Entry
  have h150 := c3_cache_ttl c3State defaultDiscoverParams 150 [] c3Entry
  have hz := c3_cache_ttl emptyDiscoveryState zeroIntervalParams 7 [] c3Entry
  refine ⟨h50.1 (by decide) (by simp [c3State]) rfl (by decide),
          (h150.2.1 (by decide) (by simp [c3State]) rfl (by decide) rfl).1,
          (h150.2.1 (by decide) (by simp [c3State]) rfl (by decide) rfl).2,
          (hz.2.2 (by decide)).1,
          (hz.2.2 (by decide)).2.2.1⟩

/-- Claim C4: when the discovery fetch fails, the caller receives the
empty list (no exception), the cache entry for the key is gone (so the key
is back in the empty state), and a subsequent lookup with the same
parameters starts one new fetch. The side condition covers the states the
program can be in: with a zero interval no entry is ever written for the
key (which embeds the interval), so the key is vacuously empty. -/
theorem c4_failure_reset (s : DiscoveryState) (params : DiscoverParams) (now2 : Int)
    (h : effRefreshIntervalSeconds params > 0 ∨
         s.cache (discoverCacheKey params) = none) :
    (discoverReject s params).1 = [] ∧
    (discoverReject s params).2.cache (discoverCacheKey params) = none ∧
    (discoverStep (discoverReject s params).2 params now2).1 =
      DiscoverOutcome.started (discoverReject s params).2.nextPromiseId ∧
    (discoverStep (discoverReject s params).2 params now2).2.fetchCount =
      (discoverReject s params).2.fetchCount + 1 := by
  have h1 : (discoverReject s params).1 = [] := by
    simp [discoverReject]
  by_cases hi : effRefreshIntervalSeconds params > 0
  · have h2 : (discoverReject s params).2.cache =
        cacheSet s.cache (discoverCacheKey params) none := by
      simp [discoverReject, if_pos hi]
    have hkey : (discoverReject s params).2.cache (discoverCacheKey params) = none := by
      rw [h2]
      simp [cacheSet]
    refine ⟨h1, hkey, ?_, ?_⟩ <;>
      simp [discoverStep, hi, hkey, startFetch]
  · have hempty2 : s.cache (discoverCacheKey params) = none := by
      rcases h with hcontra | hempty
      · exact absurd hcontra hi
      · exact hempty
    have h2 : (discoverReject s params).2.cache = s.cache := by
      simp [discoverReject, if_neg hi]
    have hkey : (discoverReject s params).2.cache (discoverCacheKey params) = none := by
      rw [h2]
      exact hempty2
    refine ⟨h1, hkey, ?_, ?_⟩ <;>
      simp [discoverStep, hi, startFetch]

/-- Claim C4 witness: rejecting a fetch at the empty state with the
default parameters returns the empty list, leaves the key empty, and the
next call starts a fetch. -/
theorem c4_witness :
    (discoverReject emptyDiscoveryState defaultDiscoverParams).1 = [] ∧
    (discoverReject emptyDiscoveryState defaultDiscoverParams).2.cache
      (discoverCacheKey defaultDiscoverParams) = none ∧
    (discoverStep (discoverReject emptyDiscoveryState defaultDiscoverParams).2
        defaultDiscoverParams 9).1 =
      DiscoverOutcome.started
        (discoverReject emptyDiscoveryState defaultDiscoverParams).2.nextPromiseId ∧
    (discoverStep (discoverReject emptyDiscoveryState defaultDiscoverParams).2
        defaultDiscoverParams 9).2.fetchCount =
      (discoverReject emptyDiscoveryState defaultDiscoverParams).2.fetchCount + 1 :=
  c4_failure_reset emptyDiscoveryState defaultDiscoverParams 9 (Or.inl (by decide))

end BedrockAdapter

namespace BedrockAdapter

/-- Claim C5 counterexample: the listing fails on the second page, yet the
resulting map is not empty — it retains the entry accumulated from the
first page, contradicting the claim that the map is empty on failure. -/
theorem c5_counterexample :
    buildInferenceProfileMap [Except.ok c5Page1, Except.error ()] = [("m1", "p1")] ∧
    ([("m1", "p1")] : List (String × String)) ≠ [] := by
  refine ⟨by decide, by decide⟩

/-- Claim C5 (amended): a failure of the paginated listing never aborts
map construction — at the point of failure the mapping accumulated from
the pages already processed is returned as is, and in particular a failure
of the very first page request yields the empty map. -/
theorem c5_profile_map_nonfatal (responses : List (Except Unit InferenceProfilePage))
    (mapping : List (String × String)) :
    buildInferenceProfileMapGo (Except.error () :: responses) mapping = mapping ∧
    buildInferenceProfileMap (Except.error () :: responses) = [] :=
  ⟨rfl, rfl⟩

theorem normalizeProviderFilter_eq_sort_dedup (filter : Option (List String)) :
    normalizeProviderFilter filter =
      List.insertionSort (fun a b => a ≤ b)
        (normalizedEntrySet (filter.getD [])).dedup := by
  cases filter with
  | none => rfl
  | some l =>
    by_cases h : l = []
    · subst h
      rfl
    · simp [normalizeProviderFilter, normalizedEntrySet, h]

theorem sortDedup_eq_of_mem_iff (l1 l2 : List String)
    (h : ∀ x, x ∈ l1 ↔ x ∈ l2) :
    List.insertionSort (fun a b => a ≤ b) l1.dedup =
    List.insertionSort (fun a b => a ≤ b) l2.dedup := by
  have hperm : List.Perm l1.dedup l2.dedup := by
    rw [List.perm_ext_iff_of_nodup (List.nodup_dedup l1) (List.nodup_dedup l2)]
    intro a
    simp only [List.mem_dedup]
    exact h a
  have hp : List.Perm (List.insertionSort (fun a b => a ≤ b) l1.dedup)
      (List.insertionSort (fun a b => a ≤ b) l2.dedup) :=
    ((List.perm_insertionSort _ _).trans hperm).trans
      (List.perm_insertionSort _ _).symm
  exact List.eq_of_perm_of_sorted hp (List.sorted_insertionSort _ _)
    (List.sorted_insertionSort _ _)

/-- Claim C10: two discover calls whose provider filters have the same set
of normalized (trimmed, lower-cased) non-blank entries — so arrays
differing only in order, case, surrounding whitespace, duplicates, or
blank entries — and that agree on region, effective refresh interval, and
resolved defaults, derive the same cache key. -/
theorem c10_cache_key_invariance (p1 p2 : DiscoverParams)
    (hregion : p1.region = p2.region)
    (hint : effRefreshIntervalSeconds p1 = effRefreshIntervalSeconds p2)
    (hcw : resolveDefaultContextWindow p1.config = resolveDefaultContextWindow p2.config)
    (hmt : resolveDefaultMaxTokens p1.config = resolveDefaultMaxTokens p2.config)
    (hfilter : ∀ x,
      x ∈ normalizedEntrySet ((p1.config.bind (·.providerFilter)).getD []) ↔
      x ∈ normalizedEntrySet ((p2.config.bind (·.providerFilter)).getD [])) :
    discoverCacheKey p1 = discoverCacheKey p2 := by
  simp only [discoverCacheKey, buildCacheKey, CacheKeyParams.mk.injEq]
  refine ⟨hregion, ?_, hint, hcw, hmt⟩
  rw [normalizeProviderFilter_eq_sort_dedup, normalizeProviderFilter_eq_sort_dedup]
  exact sortDedup_eq_of_mem_iff _ _ hfilter

/-- Discover parameters with a noisily presented provider filter. -/
def c10P1 : DiscoverParams :=
  { region := "us-east-1"
    config := some { providerFilter := some ["  Anthropic ", "", "anthropic", "AMAZON"] } }

/-- Discover parameters with the same filter presented cleanly. -/
def c10P2 : DiscoverParams :=
  { region := "us-east-1"
    config := some { providerFilter := some ["amazon", "Anthropic"] } }

/-- Claim C10 witness: the noisy and the clean presentation of the same
filter set derive the same cache key. -/
theorem c10_witness : discoverCacheKey c10P1 = discoverCacheKey c10P2 := by
  apply c10_cache_key_invariance c10P1 c10P2 rfl rfl rfl rfl
  intro x
  have h1 : normalizedEntrySet ((c10P1.config.bind (·.providerFilter)).getD []) =
      ["anthropic", "anthropic", "amazon"] := by decide
  have h2 : normalizedEntrySet ((c10P2.config.bind (·.providerFilter)).getD []) =
      ["amazon", "anthropic"] := by decide
  rw [h1, h2]
  constructor <;>
    · intro hx
      simp only [List.mem_cons, List.not_mem_nil, or_false] at hx ⊢
      tauto

end BedrockAdapter
